import Mathlib

/-!
Verification of the Timetable Enumeration & Ranking Engine of
`streamlit_app_advanced.py` (NicksSaitScheduleBuilder).

The Python engine lives in `timetable_creator` and its helper functions
(`times_overlap`, `has_conflict`, `has_unique_classes`, `has_free_days`,
`get_unique_time_slots`).  This file is a shallow embedding of those
functions: wall-clock times (Python `datetime.time` values, parsed from
"HH:MM" strings by `parse_time` and only ever compared with the usual
linear order) are embedded as minutes-since-midnight naturals; class
records (Python dicts with keys `name`, `group`, `schedule`) become
structures; the pass-through metadata keys the engine never reads
(instructor, capacity, crn, ...) are omitted.
-/

namespace ScheduleBuilder

/-- A single weekly meeting, one entry of a class's `schedule` list:
`{"day": ..., "start_time": ..., "end_time": ...}`.  Times are in minutes
since midnight (the engine only compares times, so any faithful linear
order works). -/
structure Session where
  day : String
  start_time : Nat
  end_time : Nat
deriving DecidableEq, Repr

/-- One candidate section: the `name` / `group` / `schedule` fields of the
class dicts consumed by `timetable_creator`. -/
structure ClassSection where
  name : String
  group : String
  schedule : List Session
deriving DecidableEq, Repr

/-- `times_overlap(start1, end1, start2, end2)` (line 1062):
`max(start1, start2) < min(end1, end2)`. -/
def times_overlap (start1 end1 start2 end2 : Nat) : Bool :=
  decide (max start1 start2 < min end1 end2)

/-- The per-meeting test inside `has_conflict` (lines 1069-1075): same day
and overlapping times. -/
def sessions_overlap (session1 session2 : Session) : Bool :=
  session1.day == session2.day &&
    times_overlap session1.start_time session1.end_time
      session2.start_time session2.end_time

/-- `has_conflict(class1, class2)` (lines 1066-1077): some meeting of
`class1` overlaps some meeting of `class2` on the same day. -/
def has_conflict (class1 class2 : ClassSection) : Bool :=
  class1.schedule.any fun session1 =>
    class2.schedule.any fun session2 => sessions_overlap session1 session2

/-- `has_unique_classes(combination)` (lines 1080-1082):
`len(class_names) == len(set(class_names))`. -/
def has_unique_classes (combination : List ClassSection) : Bool :=
  let class_names := combination.map fun cls => cls.name
  class_names.dedup.length == class_names.length

/-- `has_free_days(combination, free_days)` (lines 1085-1090): every
requested free day is absent from the set of scheduled days. -/
def has_free_days (combination : List ClassSection) (free_days : List String) : Bool :=
  free_days.all fun day =>
    !(combination.any fun cls => cls.schedule.any fun session => session.day == day)

/-- The score computed inline in `timetable_creator` (lines 2640-2662) for a
valid combination: `num_classes * 1000`, `+500` for respected free days,
`+200` per mandatory class included, `+300` when all mandatory classes are
included.  The loop variable `num_classes` always equals `len(combo)` at
this point, so it is taken as `combo.length`. -/
def combo_score (combo : List ClassSection) (free_days mandatory_classes : List String) : Nat :=
  let score := combo.length * 1000
  let score := if has_free_days combo free_days then score + 500 else score
  let mandatory_count := combo.countP fun cls => mandatory_classes.contains cls.name
  let score := score + mandatory_count * 200
  let has_all_mandatory := mandatory_classes.all fun mandatory_class =>
    combo.any fun cls => cls.name == mandatory_class
  if has_all_mandatory then score + 300 else score

/-- The tuple `(score, num_classes, combo, has_all_mandatory,
has_free_days(combo, free_days))` appended at lines 2664-2672. -/
structure ScoredResult where
  score : Nat
  num_classes : Nat
  combo : List ClassSection
  has_all_mandatory : Bool
  respects_free_days : Bool
deriving DecidableEq, Repr

/-- Builds the scored tuple of lines 2664-2672 for one valid combination. -/
def score_combo_entry (free_days mandatory_classes : List String)
    (num_classes : Nat) (combo : List ClassSection) : ScoredResult :=
  { score := combo_score combo free_days mandatory_classes
    num_classes := num_classes
    combo := combo
    has_all_mandatory := mandatory_classes.all fun mandatory_class =>
      combo.any fun cls => cls.name == mandatory_class
    respects_free_days := has_free_days combo free_days }

/-- The pairwise conflict scan of lines 2624-2629: `has_conflict` over
`combinations(combo, 2)`, i.e. over all index pairs i < j. -/
def any_pair_conflict : List ClassSection → Bool
  | [] => false
  | cls1 :: rest => (rest.any fun cls2 => has_conflict cls1 cls2) || any_pair_conflict rest

/-- A subset survives both rejection steps of lines 2619-2638: no
conflicting pair and no duplicate course name. -/
def valid_combo (combo : List ClassSection) : Bool :=
  !any_pair_conflict combo && has_unique_classes combo

/-- `itertools.combinations(l, k)`: all k-element subsequences of `l`, in
lexicographic order of the input indices (line 2617). -/
def combinations : Nat → List α → List (List α)
  | 0, _ => [[]]
  | _ + 1, [] => []
  | k + 1, x :: xs =>
    ((combinations k xs).map fun combo => x :: combo) ++ combinations (k + 1) xs

/-- `range(max_classes, min_classes - 1, -1)` with `min_classes = 1`
(line 2616): the sizes `max_classes, max_classes - 1, ..., 1`. -/
def candidate_sizes (max_classes : Nat) : List Nat :=
  (List.range max_classes).map fun i => max_classes - i

/-- The enumeration-and-scoring loop of `timetable_creator`
(lines 2607-2672), producing `all_combinations_with_score` in the order the
Python loop appends.  The source fixes `max_size` to `6`
(`max_classes = min(6, len(filtered_classes))`, line 2613); the engine's
size cap is kept as a parameter, instantiated with `6` in
`timetable_run` below. -/
def enumerate_scored (filtered_classes : List ClassSection)
    (free_days mandatory_classes : List String) (max_size : Nat) : List ScoredResult :=
  let max_classes := min max_size filtered_classes.length
  (candidate_sizes max_classes).flatMap fun num_classes =>
    ((combinations num_classes filtered_classes).filter valid_combo).map
      (score_combo_entry free_days mandatory_classes num_classes)

/-- One insertion step of a stable descending sort on `score`. -/
def insert_desc (r : ScoredResult) : List ScoredResult → List ScoredResult
  | [] => [r]
  | r2 :: rest => if r2.score ≤ r.score then r :: r2 :: rest else r2 :: insert_desc r rest

/-- `all_combinations_with_score.sort(key=lambda x: x[0], reverse=True)`
(line 2684): Python's sort is stable and keys only on the score, so it is
extensionally the stable descending-by-score insertion sort. -/
def sort_by_score_desc : List ScoredResult → List ScoredResult
  | [] => []
  | r :: rest => insert_desc r (sort_by_score_desc rest)

/-- The two session-state cells the run writes (lines 2687-2688):
`all_schedule_options` (absent until the first successful run) and
`current_schedule_index`. -/
structure SessionState where
  all_schedule_options : Option (List ScoredResult)
  current_schedule_index : Nat
deriving DecidableEq, Repr

/-- `filtered_classes` (lines 2590-2599): when mandatory classes were
selected, keep only those; otherwise keep the whole pool. -/
def filtered_pool (parsed_classes : List ClassSection)
    (mandatory_classes : List String) : List ClassSection :=
  if mandatory_classes.isEmpty then parsed_classes
  else parsed_classes.filter fun cls => mandatory_classes.contains cls.name

/-- The sorted result list a run would store (lines 2607-2684). -/
def run_results (parsed_classes : List ClassSection)
    (free_days mandatory_classes : List String) : List ScoredResult :=
  sort_by_score_desc
    (enumerate_scored (filtered_pool parsed_classes mandatory_classes)
      free_days mandatory_classes 6)

/-- One generate-button run of `timetable_creator` as a state transition
(lines 2459-2465 and 2587-2688): empty class pool warns and returns; empty
filtered pool warns and returns; empty scored list errors and returns; in
each early-return case the session state is untouched, otherwise the sorted
results are stored and the cursor reset to 0. -/
def timetable_run (state : SessionState) (parsed_classes : List ClassSection)
    (free_days mandatory_classes : List String) : SessionState :=
  if parsed_classes.isEmpty then state
  else if (filtered_pool parsed_classes mandatory_classes).isEmpty then state
  else
    let all_combinations_with_score := run_results parsed_classes free_days mandatory_classes
    if all_combinations_with_score.isEmpty then state
    else { all_schedule_options := some all_combinations_with_score
           current_schedule_index := 0 }

/-- `get_unique_time_slots(classes)` (lines 1093-1098): the set of distinct
`(start_time, end_time)` pairs over all sessions — the day is *not* part of
the key — returned sorted by start time.  Python sorts the set with
`key=lambda x: x[0]`; the embedding dedups the collected pairs and sorts
them stably by first component. -/
def slot_insert (slot : Nat × Nat) : List (Nat × Nat) → List (Nat × Nat)
  | [] => [slot]
  | s :: rest => if slot.1 ≤ s.1 then slot :: s :: rest else s :: slot_insert slot rest

/-- Insertion sort on the first component, used to model `sorted(...,
key=lambda x: x[0])`. -/
def slot_sort : List (Nat × Nat) → List (Nat × Nat)
  | [] => []
  | s :: rest => slot_insert s (slot_sort rest)

/-- `get_unique_time_slots(classes)` itself (lines 1093-1098). -/
def get_unique_time_slots (classes : List ClassSection) : List (Nat × Nat) :=
  slot_sort
    ((classes.flatMap fun cls =>
      cls.schedule.map fun session => (session.start_time, session.end_time)).dedup)

/-- The fixed three-section pool of the spec's completeness example:
CS101 section A, Monday 09:00-10:00. -/
def M1 : ClassSection := ⟨"CS101", "A", [⟨"Monday", 540, 600⟩]⟩

/-- CS101 section B, Monday 09:30-10:30 (overlaps `M1`, same course). -/
def M2 : ClassSection := ⟨"CS101", "B", [⟨"Monday", 570, 630⟩]⟩

/-- CS102 section A, Tuesday 09:00-10:00 (conflicts with neither). -/
def M3 : ClassSection := ⟨"CS102", "A", [⟨"Tuesday", 540, 600⟩]⟩

/-- A section with the same meeting times on two different days, exhibiting
that `get_unique_time_slots` keys slots by time only. -/
def two_day_class : ClassSection :=
  ⟨"CS103", "A", [⟨"Monday", 540, 600⟩, ⟨"Tuesday", 540, 600⟩]⟩

/-- The Preference Scorer formula as the spec states it (§4.4), written
independently of the source for the refinement check of claim C2:
`k * 1000`, plus 500 if every day in `free_days` has zero meetings across
the combination, plus 200 per section whose course name is in
`mandatory_courses`, plus 300 if every mandatory course appears. -/
def spec_score (combo : List ClassSection) (free_days mandatory_classes : List String) : Nat :=
  combo.length * 1000
    + (if ∀ day ∈ free_days, ∀ cls ∈ combo, ∀ session ∈ cls.schedule, session.day ≠ day
        then 500 else 0)
    + 200 * (combo.countP fun cls => decide (cls.name ∈ mandatory_classes))
    + (if ∀ mandatory_class ∈ mandatory_classes, ∃ cls ∈ combo, cls.name = mandatory_class
        then 300 else 0)

theorem contains_eq_mem (l : List String) (a : String) :
    l.contains a = decide (a ∈ l) := by
  have h : l.contains a = true ↔ a ∈ l := by simp [List.contains_iff_exists_mem_beq]
  by_cases hm : a ∈ l
  · simp [h.2 hm, hm]
  · have hc : l.contains a ≠ true := fun hc => hm (h.1 hc)
    simp only [Bool.not_eq_true] at hc
    simp [hc, hm]

/-- The accumulated score of lines 2640-2662 written as a four-summand
closed form (shared by the proofs of C2 and C6). -/
theorem combo_score_eq (combo : List ClassSection) (free_days mandatory_classes : List String) :
    combo_score combo free_days mandatory_classes =
      combo.length * 1000
        + (if has_free_days combo free_days then 500 else 0)
        + (combo.countP fun cls => mandatory_classes.contains cls.name) * 200
        + (if mandatory_classes.all fun mandatory_class =>
              combo.any fun cls => cls.name == mandatory_class
            then 300 else 0) := by
  simp only [combo_score]
  split_ifs <;> omega

theorem has_free_days_iff (combo : List ClassSection) (free_days : List String) :
    has_free_days combo free_days = true ↔
      ∀ day ∈ free_days, ∀ cls ∈ combo, ∀ session ∈ cls.schedule, session.day ≠ day := by
  simp [has_free_days]

theorem all_mandatory_iff (combo : List ClassSection) (mandatory_classes : List String) :
    (mandatory_classes.all fun mandatory_class =>
        combo.any fun cls => cls.name == mandatory_class) = true ↔
      ∀ mandatory_class ∈ mandatory_classes, ∃ cls ∈ combo, cls.name = mandatory_class := by
  simp [List.all_eq_true, List.any_eq_true]

/-- C1: for every pair of meetings, the overlap test is true iff the days
are equal and `max(starts) < min(ends)`; in particular two meetings on the
same day where one ends exactly when the other starts do not conflict. -/
theorem overlap_iff_same_day_and_halfopen :
    (∀ a b : Session, sessions_overlap a b = true ↔
        a.day = b.day ∧ max a.start_time b.start_time < min a.end_time b.end_time) ∧
      ∀ (d : String) (s t e : Nat),
        sessions_overlap ⟨d, s, t⟩ ⟨d, t, e⟩ = false ∧
          sessions_overlap ⟨d, t, e⟩ ⟨d, s, t⟩ = false := by
  constructor
  · intro a b
    simp [sessions_overlap, times_overlap]
  · intro d s t e
    constructor <;>
      · simp only [sessions_overlap, times_overlap, Bool.and_eq_false_iff]
        right
        simp only [decide_eq_false_iff_not]
        omega

/-- C2: the score assigned to a combination equals `k * 1000`, plus 500 when
every requested free day has zero meetings, plus 200 per mandatory section
included, plus 300 when every mandatory course appears — the source's
accumulated score coincides with the spec's formula. -/
theorem score_matches_spec_formula (combo : List ClassSection)
    (free_days mandatory_classes : List String) :
    combo_score combo free_days mandatory_classes =
      spec_score combo free_days mandatory_classes := by
  have h1 : (if has_free_days combo free_days then (500 : Nat) else 0) =
      if ∀ day ∈ free_days, ∀ cls ∈ combo, ∀ session ∈ cls.schedule, session.day ≠ day
        then 500 else 0 :=
    if_congr (by rw [← has_free_days_iff combo free_days]) rfl rfl
  have h2 : (combo.countP fun cls => mandatory_classes.contains cls.name) =
      combo.countP fun cls => decide (cls.name ∈ mandatory_classes) := by
    apply List.countP_congr
    intro cls _
    rw [contains_eq_mem]
  have h3 : (if (mandatory_classes.all fun mandatory_class =>
        combo.any fun cls => cls.name == mandatory_class) then (300 : Nat) else 0) =
      if ∀ mandatory_class ∈ mandatory_classes, ∃ cls ∈ combo, cls.name = mandatory_class
        then 300 else 0 :=
    if_congr (by rw [← all_mandatory_iff combo mandatory_classes]) rfl rfl
  rw [combo_score_eq, spec_score, h1, h2, h3]
  ring

/-- C3: on the fixed pool M1 = CS101 A (Mon 09:00-10:00), M2 = CS101 B
(Mon 09:30-10:30), M3 = CS102 A (Tue 09:00-10:00), the enumerator produces
exactly the valid combinations {M1,M3}, {M2,M3}, {M1}, {M2}, {M3}, and no
produced combination contains both M1 and M2. -/
theorem enumerator_on_three_section_pool :
    ((enumerate_scored [M1, M2, M3] [] [] 6).map fun r => r.combo) =
        [[M1, M3], [M2, M3], [M1], [M2], [M3]] ∧
      ∀ r ∈ enumerate_scored [M1, M2, M3] [] [] 6, ¬(M1 ∈ r.combo ∧ M2 ∈ r.combo) := by
  constructor
  · decide
  · decide

theorem mem_insert_desc {r x : ScoredResult} {l : List ScoredResult} :
    r ∈ insert_desc x l ↔ r = x ∨ r ∈ l := by
  induction l with
  | nil => simp [insert_desc]
  | cons y t ih =>
    by_cases h : y.score ≤ x.score
    · simp [insert_desc, h]
    · simp [insert_desc, h, ih]
      tauto

theorem mem_sort_by_score_desc {r : ScoredResult} {l : List ScoredResult} :
    r ∈ sort_by_score_desc l ↔ r ∈ l := by
  induction l with
  | nil => simp [sort_by_score_desc]
  | cons x t ih => simp [sort_by_score_desc, mem_insert_desc, ih]

theorem pairwise_insert_desc {x : ScoredResult} {l : List ScoredResult}
    (hl : l.Pairwise fun r1 r2 => r2.score ≤ r1.score) :
    (insert_desc x l).Pairwise fun r1 r2 => r2.score ≤ r1.score := by
  induction l with
  | nil => simp [insert_desc]
  | cons y t ih =>
    rcases List.pairwise_cons.1 hl with ⟨hy, ht⟩
    by_cases h : y.score ≤ x.score
    · rw [insert_desc, if_pos h]
      refine List.pairwise_cons.2 ⟨?_, hl⟩
      intro z hz
      rcases List.mem_cons.1 hz with rfl | hz
      · exact h
      · exact le_trans (hy z hz) h
    · rw [insert_desc, if_neg h]
      refine List.pairwise_cons.2 ⟨?_, ih ht⟩
      intro z hz
      rcases mem_insert_desc.1 hz with rfl | hz
      · omega
      · exact hy z hz

theorem sort_by_score_desc_sorted (l : List ScoredResult) :
    (sort_by_score_desc l).Pairwise fun r1 r2 => r2.score ≤ r1.score := by
  induction l with
  | nil => simp [sort_by_score_desc]
  | cons x t ih => exact pairwise_insert_desc ih

theorem pairwise_ties_insert_desc {x : ScoredResult} {l : List ScoredResult}
    (hsize : ∀ y ∈ l, y.num_classes ≤ x.num_classes)
    (hl : l.Pairwise fun r1 r2 => r1.score = r2.score → r2.num_classes ≤ r1.num_classes) :
    (insert_desc x l).Pairwise fun r1 r2 =>
      r1.score = r2.score → r2.num_classes ≤ r1.num_classes := by
  induction l with
  | nil => simp [insert_desc]
  | cons y t ih =>
    rcases List.pairwise_cons.1 hl with ⟨hy, ht⟩
    by_cases h : y.score ≤ x.score
    · rw [insert_desc, if_pos h]
      refine List.pairwise_cons.2 ⟨?_, hl⟩
      intro z hz _
      exact hsize z hz
    · rw [insert_desc, if_neg h]
      refine List.pairwise_cons.2
        ⟨?_, ih (fun z hz => hsize z (List.mem_cons_of_mem y hz)) ht⟩
      intro z hz heq
      rcases mem_insert_desc.1 hz with rfl | hz
      · omega
      · exact hy z hz heq

theorem sort_preserves_ties {l : List ScoredResult}
    (hl : l.Pairwise fun r1 r2 => r2.num_classes ≤ r1.num_classes) :
    (sort_by_score_desc l).Pairwise fun r1 r2 =>
      r1.score = r2.score → r2.num_classes ≤ r1.num_classes := by
  induction l with
  | nil => simp [sort_by_score_desc]
  | cons x t ih =>
    rcases List.pairwise_cons.1 hl with ⟨hx, ht⟩
    exact pairwise_ties_insert_desc
      (fun y hy => hx y (mem_sort_by_score_desc.1 hy)) (ih ht)

theorem filter_insert_desc (x : ScoredResult) (l : List ScoredResult) (s : Nat) :
    (insert_desc x l).filter (fun r => r.score == s) =
      (x :: l).filter fun r => r.score == s := by
  induction l with
  | nil => rfl
  | cons y t ih =>
    by_cases h : y.score ≤ x.score
    · rw [insert_desc, if_pos h]
    · rw [insert_desc, if_neg h]
      rw [List.filter_cons, List.filter_cons, ih, List.filter_cons, List.filter_cons]
      by_cases hx : x.score = s
      · have hy2 : y.score ≠ s := fun hy2 => h (by omega)
        simp [hx, hy2]
      · by_cases hy2 : y.score = s <;> simp [hx, hy2]

theorem filter_sort_by_score_desc (l : List ScoredResult) (s : Nat) :
    (sort_by_score_desc l).filter (fun r => r.score == s) =
      l.filter fun r => r.score == s := by
  induction l with
  | nil => rfl
  | cons x t ih =>
    show (insert_desc x (sort_by_score_desc t)).filter _ = _
    rw [filter_insert_desc, List.filter_cons, List.filter_cons, ih]

theorem candidate_sizes_pairwise (m : Nat) :
    (candidate_sizes m).Pairwise fun k1 k2 => k2 ≤ k1 := by
  unfold candidate_sizes
  rw [List.pairwise_map]
  refine (List.pairwise_lt_range m).imp ?_
  intro a b hab
  exact Nat.sub_le_sub_left (le_of_lt hab) m

theorem enumerate_scored_sizes_descending (sections : List ClassSection)
    (free_days mandatory_classes : List String) (max_size : Nat) :
    (enumerate_scored sections free_days mandatory_classes max_size).Pairwise
      fun r1 r2 => r2.num_classes ≤ r1.num_classes := by
  simp only [enumerate_scored]
  rw [List.pairwise_flatMap]
  constructor
  · intro k _
    apply List.pairwise_of_forall_mem_list
    intro a ha b hb
    rcases List.mem_map.1 ha with ⟨ca, _, rfl⟩
    rcases List.mem_map.1 hb with ⟨cb, _, rfl⟩
    simp [score_combo_entry]
  · refine (candidate_sizes_pairwise _).imp ?_
    intro k1 k2 h12 a ha b hb
    rcases List.mem_map.1 ha with ⟨ca, _, rfl⟩
    rcases List.mem_map.1 hb with ⟨cb, _, rfl⟩
    simpa [score_combo_entry] using h12

/-- C4: the stored Result Set is sorted by score descending; among
equal-score entries larger sizes come first; the subsequence of entries at
any fixed score equals (filter-for-filter) the deterministic enumeration
order; and identical inputs yield identical output lists. -/
theorem result_set_ordering (sections : List ClassSection)
    (free_days mandatory_classes : List String) (max_size : Nat) :
    (sort_by_score_desc (enumerate_scored sections free_days mandatory_classes
          max_size)).Pairwise (fun r1 r2 => r2.score ≤ r1.score) ∧
      (sort_by_score_desc (enumerate_scored sections free_days mandatory_classes
          max_size)).Pairwise
        (fun r1 r2 => r1.score = r2.score → r2.num_classes ≤ r1.num_classes) ∧
      (∀ s : Nat,
        (sort_by_score_desc (enumerate_scored sections free_days mandatory_classes
            max_size)).filter (fun r => r.score == s) =
          (enumerate_scored sections free_days mandatory_classes max_size).filter
            fun r => r.score == s) ∧
      ∀ (sections2 : List ClassSection) (free2 mand2 : List String) (max2 : Nat),
        sections2 = sections → free2 = free_days → mand2 = mandatory_classes →
        max2 = max_size →
        sort_by_score_desc (enumerate_scored sections2 free2 mand2 max2) =
          sort_by_score_desc (enumerate_scored sections free_days mandatory_classes max_size) := by
  refine ⟨sort_by_score_desc_sorted _,
    sort_preserves_ties
      (enumerate_scored_sizes_descending sections free_days mandatory_classes max_size),
    fun s => filter_sort_by_score_desc _ s, ?_⟩
  rintro s2 f2 m2 x2 rfl rfl rfl rfl
  rfl

/-- Closed instance of C4 at the fixed three-section pool. -/
theorem result_set_ordering_witness :
    (sort_by_score_desc (enumerate_scored [M1, M2, M3] ["Tuesday"] ["CS101"] 6)).Pairwise
      fun r1 r2 => r2.score ≤ r1.score :=
  (result_set_ordering [M1, M2, M3] ["Tuesday"] ["CS101"] 6).1

theorem mem_combinations {α : Type} {k : Nat} {l s : List α} :
    s ∈ combinations k l ↔ List.Sublist s l ∧ s.length = k := by
  induction l generalizing k s with
  | nil =>
    cases k with
    | zero =>
      simp only [combinations, List.mem_singleton, List.sublist_nil]
      constructor
      · rintro rfl; simp
      · rintro ⟨rfl, _⟩; rfl
    | succ k =>
      simp only [combinations, List.not_mem_nil, false_iff, not_and, List.sublist_nil]
      rintro rfl
      simp
  | cons x xs ih =>
    cases k with
    | zero =>
      simp only [combinations, List.mem_singleton]
      constructor
      · rintro rfl; exact ⟨List.nil_sublist _, rfl⟩
      · rintro ⟨_, hlen⟩
        exact List.eq_nil_of_length_eq_zero hlen
    | succ k =>
      simp only [combinations, List.mem_append, List.mem_map]
      constructor
      · rintro (⟨t, ht, rfl⟩ | h)
        · rcases ih.1 ht with ⟨hsub, hlen⟩
          exact ⟨List.Sublist.cons₂ x hsub, by simp [hlen]⟩
        · rcases ih.1 h with ⟨hsub, hlen⟩
          exact ⟨List.Sublist.cons x hsub, hlen⟩
      · rintro ⟨hsub, hlen⟩
        rcases List.sublist_cons_iff.1 hsub with h | ⟨r, rfl, hr⟩
        · exact Or.inr (ih.2 ⟨h, hlen⟩)
        · exact Or.inl ⟨r, ih.2 ⟨hr, by simpa using hlen⟩, rfl⟩

theorem mem_candidate_sizes {k m : Nat} : k ∈ candidate_sizes m ↔ 1 ≤ k ∧ k ≤ m := by
  unfold candidate_sizes
  simp only [List.mem_map, List.mem_range]
  constructor
  · rintro ⟨i, hi, rfl⟩
    omega
  · rintro ⟨h1, h2⟩
    exact ⟨m - k, by omega, by omega⟩

/-- C5: candidate sizes run from `min(max_size, |sections|)` down to 1 and
nothing else limits the search — every conflict-free, duplicate-course-free
subset of size between 1 and `min(max_size, |sections|)` appears in the
output, and every output entry has a size in that range.  The source fixes
`max_size = 6` at the call site (line 2613); the bound is a parameter here. -/
theorem enumerator_complete (sections : List ClassSection)
    (free_days mandatory_classes : List String) (max_size : Nat) :
    (∀ s : List ClassSection, List.Sublist s sections → 1 ≤ s.length →
        s.length ≤ min max_size sections.length → valid_combo s = true →
        ∃ r ∈ enumerate_scored sections free_days mandatory_classes max_size,
          r.combo = s) ∧
      ∀ r ∈ enumerate_scored sections free_days mandatory_classes max_size,
        1 ≤ r.num_classes ∧ r.num_classes ≤ min max_size sections.length ∧
          r.combo.length = r.num_classes ∧ List.Sublist r.combo sections := by
  constructor
  · intro s hsub h1 h2 hvalid
    refine ⟨score_combo_entry free_days mandatory_classes s.length s, ?_, rfl⟩
    simp only [enumerate_scored]
    rw [List.mem_flatMap]
    exact ⟨s.length, mem_candidate_sizes.2 ⟨h1, h2⟩,
      List.mem_map.2 ⟨s, List.mem_filter.2 ⟨mem_combinations.2 ⟨hsub, rfl⟩, hvalid⟩, rfl⟩⟩
  · intro r hr
    simp only [enumerate_scored] at hr
    rw [List.mem_flatMap] at hr
    rcases hr with ⟨k, hk, hr⟩
    rcases List.mem_map.1 hr with ⟨c, hc, rfl⟩
    rcases List.mem_filter.1 hc with ⟨hcm, _⟩
    rcases mem_combinations.1 hcm with ⟨hsub, hlen⟩
    rcases mem_candidate_sizes.1 hk with ⟨hk1, hk2⟩
    exact ⟨by simpa [score_combo_entry] using hk1,
      by simpa [score_combo_entry] using hk2,
      by simp [score_combo_entry, hlen],
      by simpa [score_combo_entry] using hsub⟩

/-- Closed instance of C5: the valid subset {M2, M3} of the three-section
pool appears in the enumerator's output. -/
theorem enumerator_complete_witness :
    List.Sublist [M2, M3] [M1, M2, M3] ∧ valid_combo [M2, M3] = true ∧
      ∃ r ∈ enumerate_scored [M1, M2, M3] [] [] 6, r.combo = [M2, M3] :=
  ⟨by decide, by decide,
    (enumerator_complete [M1, M2, M3] [] [] 6).1 [M2, M3]
      (by decide) (by decide) (by decide) (by decide)⟩

theorem all_mandatory_mono (combo : List ClassSection) (s : ClassSection)
    (mandatory_classes : List String)
    (h : (mandatory_classes.all fun mandatory_class =>
        combo.any fun cls => cls.name == mandatory_class) = true) :
    (mandatory_classes.all fun mandatory_class =>
        (combo ++ [s]).any fun cls => cls.name == mandatory_class) = true := by
  rw [List.all_eq_true] at h ⊢
  intro m hm
  rw [List.any_append]
  simp [h m hm]

/-- C6: for fixed constraints, appending one more section that conflicts
with nothing in the combination and has a fresh course name strictly
increases the score (the +1000 size term dominates the bounded free-day and
mandatory terms). -/
theorem score_strictly_increases_with_size (combo : List ClassSection) (s : ClassSection)
    (free_days mandatory_classes : List String)
    (h : ∀ c ∈ combo, has_conflict c s = false ∧ c.name ≠ s.name) :
    combo_score combo free_days mandatory_classes <
      combo_score (combo ++ [s]) free_days mandatory_classes := by
  rw [combo_score_eq, combo_score_eq]
  have hlen : (combo ++ [s]).length = combo.length + 1 := by simp
  have hF : (if has_free_days combo free_days then (500 : Nat) else 0) ≤ 500 := by
    split_ifs <;> omega
  have hcount : (combo.countP fun cls => mandatory_classes.contains cls.name) ≤
      (combo ++ [s]).countP fun cls => mandatory_classes.contains cls.name := by
    rw [List.countP_append]
    omega
  have hmand : (if (mandatory_classes.all fun mandatory_class =>
        combo.any fun cls => cls.name == mandatory_class) then (300 : Nat) else 0) ≤
      if (mandatory_classes.all fun mandatory_class =>
        (combo ++ [s]).any fun cls => cls.name == mandatory_class) then 300 else 0 := by
    split_ifs with h1 h2
    · omega
    · exact absurd (all_mandatory_mono combo s mandatory_classes h1) h2
    · omega
    · omega
  rw [hlen]
  omega

/-- Closed instance of C6: adding the non-conflicting, distinct-course M3 to
{M1} strictly raises the score. -/
theorem score_strictly_increases_with_size_witness :
    (∀ c ∈ [M1], has_conflict c M3 = false ∧ c.name ≠ M3.name) ∧
      combo_score [M1] ["Tuesday"] ["CS101"] < combo_score [M1, M3] ["Tuesday"] ["CS101"] :=
  ⟨by decide, score_strictly_increases_with_size [M1] M3 ["Tuesday"] ["CS101"] (by decide)⟩

/-- C7 counterexample: invoked with zero sections from a fresh session, the
run leaves `all_schedule_options` unset (`none`) — it does not store an
empty Result Set, contrary to the claim that the Result Set is never left
unset. -/
theorem empty_input_leaves_result_unset :
    (timetable_run ⟨none, 0⟩ [] [] []).all_schedule_options = none ∧
      (none : Option (List ScoredResult)) ≠ some [] := by
  constructor
  · rfl
  · simp

/-- C7 amended: enumeration invoked with zero sections returns early with a
warning and no error, leaving the session state (stored Result Set —
possibly unset — and cursor) unchanged; the enumeration core itself yields
an empty list on an empty pool. -/
theorem empty_input_behavior (state : SessionState)
    (free_days mandatory_classes : List String) (max_size : Nat) :
    timetable_run state [] free_days mandatory_classes = state ∧
      enumerate_scored [] free_days mandatory_classes max_size = [] := by
  constructor
  · rfl
  · simp [enumerate_scored, candidate_sizes]

/-- C8 counterexample: the conflict test applied to one section and itself
returns true, not false — the section's single meeting overlaps itself. -/
theorem self_conflict_counterexample : has_conflict M1 M1 = true := by decide

/-- C8 amended: for every section having at least one meeting with
`start_time < end_time`, the conflict test on the section and itself
returns true (the enumerator only ever applies it to distinct pool
entries, so the self case never arises in a run). -/
theorem self_conflict_true (cls : ClassSection) (session : Session)
    (hmem : session ∈ cls.schedule) (hlt : session.start_time < session.end_time) :
    has_conflict cls cls = true := by
  rw [has_conflict, List.any_eq_true]
  refine ⟨session, hmem, ?_⟩
  rw [List.any_eq_true]
  refine ⟨session, hmem, ?_⟩
  simp only [sessions_overlap, times_overlap, Bool.and_eq_true, beq_self_eq_true,
    decide_eq_true_eq, true_and]
  omega

/-- Closed instance of the amended C8 at section M3. -/
theorem self_conflict_true_witness :
    (⟨"Tuesday", 540, 600⟩ : Session) ∈ M3.schedule ∧ has_conflict M3 M3 = true :=
  ⟨by decide, self_conflict_true M3 ⟨"Tuesday", 540, 600⟩ (by decide) (by decide)⟩

theorem mem_slot_insert {a x : Nat × Nat} {l : List (Nat × Nat)} :
    a ∈ slot_insert x l ↔ a = x ∨ a ∈ l := by
  induction l with
  | nil => simp [slot_insert]
  | cons y t ih =>
    by_cases h : x.1 ≤ y.1
    · simp [slot_insert, h]
    · simp [slot_insert, h, ih]
      tauto

theorem mem_slot_sort {a : Nat × Nat} {l : List (Nat × Nat)} :
    a ∈ slot_sort l ↔ a ∈ l := by
  induction l with
  | nil => simp [slot_sort]
  | cons x t ih => simp [slot_sort, mem_slot_insert, ih]

theorem slot_insert_sorted {x : Nat × Nat} {l : List (Nat × Nat)}
    (hl : l.Pairwise fun a b => a.1 ≤ b.1) :
    (slot_insert x l).Pairwise fun a b => a.1 ≤ b.1 := by
  induction l with
  | nil => simp [slot_insert]
  | cons y t ih =>
    rcases List.pairwise_cons.1 hl with ⟨hy, ht⟩
    by_cases h : x.1 ≤ y.1
    · rw [slot_insert, if_pos h]
      refine List.pairwise_cons.2 ⟨?_, hl⟩
      intro z hz
      rcases List.mem_cons.1 hz with rfl | hz
      · exact h
      · exact le_trans h (hy z hz)
    · rw [slot_insert, if_neg h]
      refine List.pairwise_cons.2 ⟨?_, ih ht⟩
      intro z hz
      rcases mem_slot_insert.1 hz with rfl | hz
      · omega
      · exact hy z hz

theorem slot_sort_sorted (l : List (Nat × Nat)) :
    (slot_sort l).Pairwise fun a b => a.1 ≤ b.1 := by
  induction l with
  | nil => simp [slot_sort]
  | cons x t ih => exact slot_insert_sorted ih

theorem slot_insert_nodup {x : Nat × Nat} {l : List (Nat × Nat)}
    (hx : x ∉ l) (hl : l.Nodup) : (slot_insert x l).Nodup := by
  induction l with
  | nil => simp [slot_insert]
  | cons y t ih =>
    rcases List.pairwise_cons.1 hl with ⟨hy, ht⟩
    by_cases h : x.1 ≤ y.1
    · rw [slot_insert, if_pos h]
      refine List.pairwise_cons.2 ⟨?_, hl⟩
      intro z hz hxz
      exact hx (hxz ▸ hz)
    · rw [slot_insert, if_neg h]
      refine List.pairwise_cons.2
        ⟨?_, ih (fun hmem => hx (List.mem_cons_of_mem y hmem)) ht⟩
      intro z hz
      rcases mem_slot_insert.1 hz with rfl | hz
      · intro hyz
        exact hx (hyz ▸ List.mem_cons_self y t)
      · exact hy z hz

theorem slot_sort_nodup {l : List (Nat × Nat)} (hl : l.Nodup) : (slot_sort l).Nodup := by
  induction l with
  | nil => simp [slot_sort]
  | cons x t ih =>
    rcases List.pairwise_cons.1 hl with ⟨hx, ht⟩
    exact slot_insert_nodup
      (fun hmem => hx x (mem_slot_sort.1 hmem) rfl) (ih ht)

/-- C9 counterexample: a section meeting Monday 09:00-10:00 and Tuesday
09:00-10:00 yields a single derived slot, not the two distinct
`(day, start, end)` entries the claim requires — days are not part of the
slot key. -/
theorem unique_time_slots_counterexample :
    get_unique_time_slots [two_day_class] = [(540, 600)] ∧
      (get_unique_time_slots [two_day_class]).length ≠ 2 := by
  constructor
  · decide
  · decide

/-- C9 amended: the derived table of occupied weekly time slots is the set
of distinct `(start, end)` pairs used by any section — the day is ignored,
so equal times on different days collapse to one entry — listed without
duplicates in ascending order of start time. -/
theorem unique_time_slots_spec (classes : List ClassSection) :
    (∀ slot : Nat × Nat,
        slot ∈ get_unique_time_slots classes ↔
          ∃ cls ∈ classes, ∃ session ∈ cls.schedule,
            slot = (session.start_time, session.end_time)) ∧
      (get_unique_time_slots classes).Pairwise (fun a b => a.1 ≤ b.1) ∧
      (get_unique_time_slots classes).Nodup := by
  refine ⟨?_, slot_sort_sorted _, slot_sort_nodup (List.nodup_dedup _)⟩
  intro slot
  rw [get_unique_time_slots, mem_slot_sort, List.mem_dedup, List.mem_flatMap]
  simp only [List.mem_map]
  constructor
  · rintro ⟨cls, hcls, session, hses, rfl⟩
    exact ⟨cls, hcls, session, hses, rfl⟩
  · rintro ⟨cls, hcls, session, hses, rfl⟩
    exact ⟨cls, hcls, session, hses, rfl⟩

/-- Closed instance of the amended C9 at the two-day section. -/
theorem unique_time_slots_spec_witness :
    (get_unique_time_slots [two_day_class]).Nodup :=
  (unique_time_slots_spec [two_day_class]).2.2

/-- C10: whenever the run's scored-combination list comes out empty, the run
returns early and the session state — the stored result list and the cursor
index from the previous successful run, if any — is unchanged. -/
theorem empty_results_preserve_state (state : SessionState)
    (parsed_classes : List ClassSection) (free_days mandatory_classes : List String)
    (h : run_results parsed_classes free_days mandatory_classes = []) :
    timetable_run state parsed_classes free_days mandatory_classes = state := by
  simp only [timetable_run]
  split_ifs with h1 h2 h3
  · rfl
  · rfl
  · rfl
  · rw [h] at h3
    simp at h3

/-- Closed instance of C10: a run whose result list is empty leaves a
previously stored state untouched. -/
theorem empty_results_preserve_state_witness :
    run_results [] ["Monday"] [] = [] ∧
      timetable_run ⟨some [], 5⟩ [] ["Monday"] [] = ⟨some [], 5⟩ :=
  ⟨rfl, empty_results_preserve_state ⟨some [], 5⟩ [] ["Monday"] [] rfl⟩

end ScheduleBuilder
